import Mathlib

/-!
Verification development for the block-preconditioning and distributed
linear-algebra subsystem of the oomph-lib repository.

The definitions below are shallow embeddings of the C++ classes in

  * src/generic/double_multi_vector.h      (DoubleMultiVector)
  * src/space_time/space_time_block_preconditioner/
      general_purpose_space_time_block_preconditioner.h
      (ExactDGPBlockPreconditioner, BandedBlockTriangularPreconditioner)
  * src/generic/mumps_solver.h             (MumpsSolver, NewMumpsPreconditioner)
  * src/meshes/simple_cubic_mesh.template.h (SimpleCubicMesh)

Machine doubles are embedded as elements of a commutative ring (instantiated
at ℚ for executable witnesses and at ℝ where a square root is involved).
MPI collectives are embedded by passing the collective reduction as an
explicit function argument and recording each collective call as an event, so
that theorems can speak about how many communications an operation performs.
-/

namespace Oomph

/-- Embedding of `LinearAlgebraDistribution` as seen by one process: the
global row count, this process's local row count and first row, the
"is actually distributed" flag, the number of processes of the communicator
and the "distribution has been built" flag. Equality of two distributions is
structural, mirroring `LinearAlgebraDistribution::operator==`. -/
structure LinearAlgebraDistribution where
  nrow : Nat
  nrowLocal : Nat
  firstRow : Nat
  distributedFlag : Bool
  nproc : Nat
  builtFlag : Bool
deriving DecidableEq

/-- Embedding of a thrown `OomphLibError`: the carried message. -/
structure OomphLibError where
  message : String
deriving DecidableEq

/-- A collective communication performed by an operation:
`allreduceSum k` is one `MPI_Allreduce(..., k, MPI_DOUBLE, MPI_SUM, ...)`
call combining `k` partial values in a single communication. -/
inductive CommEvent where
  | allreduceSum (count : Nat)
deriving DecidableEq

/-- Embedding of `DoubleMultiVector`: the `k` local value arrays (`Values`,
one list per component vector), the distribution and the `Built` flag. -/
structure DoubleMultiVector (α : Type) where
  Values : List (List α)
  dist : LinearAlgebraDistribution
  Built : Bool
deriving DecidableEq

namespace DoubleMultiVector

variable {α : Type} [CommRing α]

/-- `DoubleMultiVector::nvector()`: the number of component vectors. -/
def nvector (a : DoubleMultiVector α) : Nat := a.Values.length

/-- `this->nrow_local()`: the local row count of the distribution. -/
def nrowLocal (a : DoubleMultiVector α) : Nat := a.dist.nrowLocal

/-- The guard `this->distributed() && nproc() > 1` used by `dot`, `norm` and
`output` to decide whether a collective communication is needed. -/
def multiProc (a : DoubleMultiVector α) : Bool :=
  a.dist.distributedFlag && decide (1 < a.dist.nproc)

/-- `DoubleMultiVector::build(n_vector, dist_pt, initial_value)`: when the
distribution is built, allocate `n_vector` vectors of `nrow_local` entries,
each set to `initial_value`, and mark the vector built; otherwise leave the
vector unbuilt. -/
def build (nVector : Nat) (dist : LinearAlgebraDistribution) (initialValue : α) :
    DoubleMultiVector α :=
  if dist.builtFlag then
    { Values := List.replicate nVector (List.replicate dist.nrowLocal initialValue)
      dist := dist
      Built := true }
  else
    { Values := [], dist := dist, Built := false }

/-- The RANGE_CHECKING test of `DoubleMultiVector::operator()(v, i)`,
exactly as the source writes it: an error is raised when
`v > int(Nvector)` or `i >= int(nrow_local())`. -/
def rangeCheckFails (a : DoubleMultiVector α) (v i : Int) : Bool :=
  decide ((a.nvector : Int) < v) || decide ((a.nrowLocal : Int) ≤ i)

/-- `DoubleMultiVector::operator()(v, i)` in a RANGE_CHECKING build: throw
when the range check fires, otherwise read `Values[v][i]` (an index the
check let through but which is out of bounds is an unchecked read; the
embedding returns the type's default value `0` for it). -/
def entry (a : DoubleMultiVector α) (v i : Int) : Except OomphLibError α :=
  if a.rangeCheckFails v i then
    Except.error ⟨"Range Error"⟩
  else
    Except.ok (((a.Values.getD v.toNat []).getD i.toNat 0))

/-- The local inner-product loop of `DoubleMultiVector::dot`:
`n[v] += Values[v][i] * vec_values_pt[i]` for `i` over the local rows. -/
def localSumLoop (nrl : Nat) (x y : List α) : α :=
  ((List.range nrl).map fun i => x.getD i 0 * y.getD i 0).sum

/-- `DoubleMultiVector::dot(vec, result)`. PARANOID checks: this vector and
`vec` must be built and share a distribution. Then the `k` local partial
inner products are computed, and — exactly when
`distributed() && nproc() > 1` — a single `MPI_Allreduce` (sum) over all
`k` partial sums is performed, recorded as one `CommEvent`. The collective
itself is passed in as `allreduce`. -/
def dot (a vec : DoubleMultiVector α) (allreduce : List α → List α) :
    Except OomphLibError (List α × List CommEvent) :=
  if a.Built = false then Except.error ⟨"This vector must be setup."⟩
  else if vec.Built = false then Except.error ⟨"The input vector be setup."⟩
  else if a.dist ≠ vec.dist then
    Except.error
      ⟨"The distribution of this vector and the vector vec must be the same."⟩
  else
    let n := (List.range a.nvector).map fun v =>
      localSumLoop a.nrowLocal (a.Values.getD v []) (vec.Values.getD v [])
    if a.multiProc then
      Except.ok (allreduce n, [CommEvent.allreduceSum n.length])
    else
      Except.ok (n, [])

/-- `DoubleMultiVector::norm(result)`. PARANOID check: the vector must be
built. The local sums of squares are computed (the same loop as `dot`
specialized to the vector itself), all-reduced in one collective exactly
when `distributed() && nproc() > 1`, and the result is the per-entry square
root (`sqrtFn`, the libm `sqrt` call). -/
def norm (a : DoubleMultiVector α) (sqrtFn : α → α) (allreduce : List α → List α) :
    Except OomphLibError (List α × List CommEvent) :=
  if a.Built = false then Except.error ⟨"This vector must be setup."⟩
  else
    let n := (List.range a.nvector).map fun v =>
      localSumLoop a.nrowLocal (a.Values.getD v []) (a.Values.getD v [])
    let n2 := if a.multiProc then allreduce n else n
    let ev : List CommEvent :=
      if a.multiProc then [CommEvent.allreduceSum n.length] else []
    Except.ok (n2.map sqrtFn, ev)

/-- `DoubleMultiVector::operator+=(vec)`. PARANOID checks: both vectors
built, identical distributions. Then purely local value mutation
`Values[v][i] += v_values[v][i]` (the empty event list records that no
communication is performed). -/
def plusEq (a vec : DoubleMultiVector α) :
    Except OomphLibError (DoubleMultiVector α × List CommEvent) :=
  if a.Built = false then Except.error ⟨"This vector must be setup."⟩
  else if vec.Built = false then Except.error ⟨"The vector v must be setup."⟩
  else if a.dist ≠ vec.dist then
    Except.error
      ⟨"The vector v and this vector must have the same distribution."⟩
  else
    Except.ok
      ({ a with
          Values := (List.range a.nvector).map fun v =>
            (List.range a.nrowLocal).map fun i =>
              (a.Values.getD v []).getD i 0 + (vec.Values.getD v []).getD i 0 },
        [])

/-- `DoubleMultiVector::operator-=(vec)`. PARANOID checks: this vector's
distribution built (the source checks `distribution_built()` here), `vec`
built, identical distributions. Then purely local value mutation
`Values[v][i] -= v_values[v][i]`. -/
def minusEq (a vec : DoubleMultiVector α) :
    Except OomphLibError (DoubleMultiVector α × List CommEvent) :=
  if a.dist.builtFlag = false then Except.error ⟨"This vector must be setup."⟩
  else if vec.Built = false then Except.error ⟨"The vector v must be setup."⟩
  else if a.dist ≠ vec.dist then
    Except.error
      ⟨"The vector v and this vector must have the same distribution."⟩
  else
    Except.ok
      ({ a with
          Values := (List.range a.nvector).map fun v =>
            (List.range a.nrowLocal).map fun i =>
              (a.Values.getD v []).getD i 0 - (vec.Values.getD v []).getD i 0 },
        [])

/-- The mathematical inner product of two same-length lists. -/
def innerProduct (x y : List α) : α := (List.zipWith (fun s t => s * t) x y).sum

/-- The `k` per-component inner products of two multivectors. -/
def innerProducts (a b : DoubleMultiVector α) : List α :=
  List.zipWith innerProduct a.Values b.Values

end DoubleMultiVector

/-- Whether an `Except` value is a thrown error. -/
def isError {ε β : Type} : Except ε β → Bool
  | Except.error _ => true
  | Except.ok _ => false

/-- Decidable equality of `Except` values, for evaluating the embedded
operations on concrete inputs. -/
instance instDecidableEqExcept {ε β : Type} [DecidableEq ε] [DecidableEq β] :
    DecidableEq (Except ε β) := fun x y =>
  match x, y with
  | Except.error a, Except.error b =>
      if h : a = b then Decidable.isTrue (h ▸ rfl)
      else Decidable.isFalse (fun hc => h (Except.error.inj hc))
  | Except.error _, Except.ok _ =>
      Decidable.isFalse (fun hc => Except.noConfusion hc)
  | Except.ok _, Except.error _ =>
      Decidable.isFalse (fun hc => Except.noConfusion hc)
  | Except.ok a, Except.ok b =>
      if h : a = b then Decidable.isTrue (h ▸ rfl)
      else Decidable.isFalse (fun hc => h (Except.ok.inj hc))

/-- Modelled from the spec: the base class
`GeneralPurposeBlockPreconditioner` lives in
src/generic/general_purpose_block_preconditioners.h, which is not among the
repository files provided; per the spec its `clean_up_memory()` "releases
all block operators". The base state is the table of subsidiary
preconditioner slots (an abstract owned resource per diagonal block,
identified by a number; `none` is a null slot). -/
structure GeneralPurposeBlockPreconditionerBase where
  subsidiaryPreconditionerSlots : List (Option Nat)
deriving DecidableEq

namespace GeneralPurposeBlockPreconditionerBase

/-- Modelled from the spec: `GeneralPurposeBlockPreconditioner::clean_up_memory`
releases every subsidiary block operator and nulls its slot; the returned
list collects the resources actually freed. -/
def clean_up_memory (b : GeneralPurposeBlockPreconditionerBase) :
    GeneralPurposeBlockPreconditionerBase × List Nat :=
  (⟨b.subsidiaryPreconditionerSlots.map fun _ => none⟩,
    b.subsidiaryPreconditionerSlots.filterMap id)

end GeneralPurposeBlockPreconditionerBase

/-- Embedding of `ExactDGPBlockPreconditioner`: the three fields declared in
general_purpose_space_time_block_preconditioner.h plus the base-class state. -/
structure ExactDGPBlockPreconditioner where
  base : GeneralPurposeBlockPreconditionerBase
  Preconditioner_has_been_setup : Bool
  Compute_memory_statistics : Bool
  Memory_usage_in_bytes : Rat
deriving DecidableEq

namespace ExactDGPBlockPreconditioner

/-- `ExactDGPBlockPreconditioner::get_memory_usage_in_bytes()`: the returned
value paired with whether an `OomphLibWarning` was emitted. The source never
throws here: set up and computing statistics returns the recorded value
silently; otherwise zero is returned with a warning. -/
def get_memory_usage_in_bytes (p : ExactDGPBlockPreconditioner) : Rat × Bool :=
  if p.Preconditioner_has_been_setup then
    if p.Compute_memory_statistics then
      (p.Memory_usage_in_bytes, false)
    else
      (0, true)
  else
    (0, true)

/-- `ExactDGPBlockPreconditioner::clean_up_memory()`: forwards to the base
class. -/
def clean_up_memory (p : ExactDGPBlockPreconditioner) :
    ExactDGPBlockPreconditioner × List Nat :=
  let b := p.base.clean_up_memory
  ({ p with base := b.1 }, b.2)

end ExactDGPBlockPreconditioner

/-- Embedding of `BandedBlockTriangularPreconditioner`: the
`Off_diagonal_matrix_vector_products` table (a dense matrix of owned
`MatrixVectorProduct*`, identified by numbers, `none` being a null pointer)
and the scalar fields declared in
general_purpose_space_time_block_preconditioner.h, plus the base state. -/
structure BandedBlockTriangularPreconditioner where
  base : GeneralPurposeBlockPreconditionerBase
  Off_diagonal_matrix_vector_products : List (List (Option Nat))
  Block_bandwidth : Int
  Upper_triangular : Bool
  Preconditioner_has_been_setup : Bool
  Compute_memory_statistics : Bool
  Memory_usage_in_bytes : Rat
deriving DecidableEq

namespace BandedBlockTriangularPreconditioner

/-- The `BandedBlockTriangularPreconditioner()` constructor: upper
triangular by default, `Block_bandwidth = -1` (assume every block above the
diagonal non-empty), not set up, no memory statistics; the operator table
starts empty and the base class is freshly constructed. -/
def init : BandedBlockTriangularPreconditioner :=
  { base := ⟨[]⟩
    Off_diagonal_matrix_vector_products := []
    Block_bandwidth := -1
    Upper_triangular := true
    Preconditioner_has_been_setup := false
    Compute_memory_statistics := false
    Memory_usage_in_bytes := 0 }

/-- `BandedBlockTriangularPreconditioner::clean_up_memory()`: every entry of
`Off_diagonal_matrix_vector_products` is deleted (a non-null pointer is
freed, `delete` of a null pointer frees nothing) and the slot is nulled;
then the base-class cleanup runs. Returns the new state and the list of
resources freed. -/
def clean_up_memory (p : BandedBlockTriangularPreconditioner) :
    BandedBlockTriangularPreconditioner × List Nat :=
  let freed := (p.Off_diagonal_matrix_vector_products.map fun row =>
    row.filterMap id).flatten
  let cleared := p.Off_diagonal_matrix_vector_products.map fun row =>
    row.map fun _ => (none : Option Nat)
  let b := p.base.clean_up_memory
  ({ p with Off_diagonal_matrix_vector_products := cleared, base := b.1 },
    freed ++ b.2)

/-- The destructor `~BandedBlockTriangularPreconditioner()`: it forwards the
call to `clean_up_memory()`. -/
def destructor (p : BandedBlockTriangularPreconditioner) :
    BandedBlockTriangularPreconditioner × List Nat :=
  p.clean_up_memory

/-- `BandedBlockTriangularPreconditioner::get_memory_usage_in_bytes()`: the
returned value paired with whether an `OomphLibWarning` was emitted;
textually the same logic as the `ExactDGPBlockPreconditioner` version. -/
def get_memory_usage_in_bytes (p : BandedBlockTriangularPreconditioner) :
    Rat × Bool :=
  if p.Preconditioner_has_been_setup then
    if p.Compute_memory_statistics then
      (p.Memory_usage_in_bytes, false)
    else
      (0, true)
  else
    (0, true)

end BandedBlockTriangularPreconditioner

/-- Modelled from the spec: the populated-block policy applied by
`BandedBlockTriangularPreconditioner::setup()` (implemented in a source file
not among the repository files provided; the header provides the
`Block_bandwidth` and `Upper_triangular` fields this policy reads). A
position is a candidate when its column block index is beyond the row block
index on the configured triangular side. -/
def blockIsCandidate (upper : Bool) (row col : Nat) : Bool :=
  if upper then decide (row < col) else decide (col < row)

/-- Modelled from the spec: among candidates, with `Block_bandwidth ≥ 0`
only positions within the bandwidth of the diagonal are populated, and with
bandwidth `-1` every candidate is populated. -/
def blockIsPopulated (upper : Bool) (bw : Int) (row col : Nat) : Bool :=
  blockIsCandidate upper row col &&
    (if 0 ≤ bw then decide (|(col : Int) - (row : Int)| ≤ bw) else true)

/-- The set of populated off-diagonal positions of an `n × n` block grid
under the given triangularity and bandwidth. -/
def populatedPositions (n : Nat) (upper : Bool) (bw : Int) : Finset (Nat × Nat) :=
  (Finset.range n ×ˢ Finset.range n).filter fun p =>
    blockIsPopulated upper bw p.1 p.2 = true

/-- Modelled from the spec: the `LinearSolver` base class
(src/generic/linear_solver.h is not among the repository files provided);
its `disable_resolve()` clears the flag that keeps the factorisation for
later `resolve` calls. The MUMPS solver state also keeps the triplet arrays
`Irn_loc`, `Jcn_loc`, `A_loc` and the factorisation state declared in
src/generic/mumps_solver.h: `Mumps_is_initialised` plus the warm
factorisation (the identity of the matrix last factorised, `none` when no
successful factorisation is held). -/
structure MumpsSolverState where
  Enable_resolve : Bool
  Mumps_is_initialised : Bool
  Irn_loc : List Int
  Jcn_loc : List Int
  A_loc : List Rat
  warmFactorisation : Option Nat
deriving DecidableEq

namespace MumpsSolverState

/-- Modelled from the spec: `LinearSolver::disable_resolve()` clears the
`Enable_resolve` flag (base class not among the provided files). -/
def linearSolverDisableResolve (s : MumpsSolverState) : MumpsSolverState :=
  { s with Enable_resolve := false }

/-- Modelled from the spec: `MumpsSolver::clean_up_memory()` (implemented in
src/generic/mumps_solver.cc, not among the provided files) "releases the
solver's internal factorization state and triplet arrays": MUMPS is shut
down, the warm factorisation is dropped and the triplet arrays are cleared. -/
def clean_up_memory (s : MumpsSolverState) : MumpsSolverState :=
  { s with
      Mumps_is_initialised := false
      warmFactorisation := none
      Irn_loc := []
      Jcn_loc := []
      A_loc := [] }

/-- `MumpsSolver::disable_resolve()`, exactly as the header writes it:
`LinearSolver::disable_resolve()` followed by `clean_up_memory()`. -/
def disable_resolve (s : MumpsSolverState) : MumpsSolverState :=
  s.linearSolverDisableResolve.clean_up_memory

/-- Modelled from the spec: `~MumpsSolver()` "Destructor: Cleanup" invokes
`clean_up_memory()` automatically (the destructor body is in
src/generic/mumps_solver.cc, not among the provided files). -/
def destructor (s : MumpsSolverState) : MumpsSolverState :=
  s.clean_up_memory

/-- Modelled from the spec: `MumpsSolver::factorise(matrix)` converts the
matrix into the 1-indexed triplet representation, performs analysis and
numeric factorisation, and leaves a warm factorisation of that matrix
(matrices are identified by a number; the triplet contents are abstracted
to the matrix identity). -/
def factorise (s : MumpsSolverState) (matrixId : Nat) : MumpsSolverState :=
  { s with
      Mumps_is_initialised := true
      warmFactorisation := some matrixId }

/-- Modelled from the spec: `MumpsSolver::resolve(rhs, result)` "reuses an
existing factorization against a new right-hand side and fails if no prior
successful factorization exists". On success the result is the
backsubstitution of the held factorisation against the given right-hand
side, embedded as the pair (factorised matrix, rhs). -/
def resolve (s : MumpsSolverState) (rhs : Nat) :
    Except OomphLibError (Nat × Nat) :=
  match s.warmFactorisation with
  | some matrixId => Except.ok (matrixId, rhs)
  | none => Except.error ⟨"Resolve called without a prior factorisation"⟩

end MumpsSolverState

/-- The object handed to `NewMumpsPreconditioner::setup()` through
`matrix_pt()`: a matrix identity together with the result of the
`dynamic_cast<DistributableLinearAlgebraObject*>` — `some` distribution when
the matrix is a `DistributableLinearAlgebraObject`, `none` otherwise. -/
structure MatrixObject where
  id : Nat
  distributable : Option LinearAlgebraDistribution
deriving DecidableEq

/-- Embedding of `NewMumpsPreconditioner`: its MUMPS solver and the
distribution the preconditioner has built for itself (`none` before
`build_distribution`). -/
structure NewMumpsPreconditioner where
  Solver : MumpsSolverState
  Distribution : Option LinearAlgebraDistribution
deriving DecidableEq

namespace NewMumpsPreconditioner

/-- `NewMumpsPreconditioner::setup()`: when the matrix casts to a
`DistributableLinearAlgebraObject` the preconditioner adopts the matrix's
distribution (`build_distribution`) and factorises the matrix with its MUMPS
solver; otherwise an `OomphLibError` is thrown. -/
def setup (p : NewMumpsPreconditioner) (m : MatrixObject) :
    Except OomphLibError NewMumpsPreconditioner :=
  match m.distributable with
  | some d =>
      Except.ok { p with Distribution := some d, Solver := p.Solver.factorise m.id }
  | none =>
      Except.error
        ⟨"NewMumpsPreconditioner can only be applied to matrices derived DistributableLinearAlgebraObject."⟩

/-- `NewMumpsPreconditioner::preconditioner_solve(r, z)`: exactly
`Solver.resolve(r, z)`. -/
def preconditioner_solve (p : NewMumpsPreconditioner) (r : Nat) :
    Except OomphLibError (Nat × Nat) :=
  p.Solver.resolve r

end NewMumpsPreconditioner

/-- Embedding of `SimpleCubicMesh`: the element counts and coordinate bounds
stored by its constructors. -/
structure SimpleCubicMesh where
  Nx : Nat
  Ny : Nat
  Nz : Nat
  Xmin : Rat
  Xmax : Rat
  Ymin : Rat
  Ymax : Rat
  Zmin : Rat
  Zmax : Rat
deriving DecidableEq

namespace SimpleCubicMesh

/-- The `SimpleCubicMesh(nx, ny, nz, lx, ly, lz, ...)` constructor: stores
the element counts and the box `[0, lx] × [0, ly] × [0, lz]`. -/
def construct (nx ny nz : Nat) (lx ly lz : Rat) : SimpleCubicMesh :=
  { Nx := nx, Ny := ny, Nz := nz
    Xmin := 0, Xmax := lx
    Ymin := 0, Ymax := ly
    Zmin := 0, Zmax := lz }

/-- Accessor `nx()`: returns `Nx`. -/
def nx (m : SimpleCubicMesh) : Nat := m.Nx

/-- Accessor `ny()`: returns `Ny`. -/
def ny (m : SimpleCubicMesh) : Nat := m.Ny

/-- Accessor `nz()` exactly as the source writes it: it returns `Nx`. -/
def nz (m : SimpleCubicMesh) : Nat := m.Nx

end SimpleCubicMesh

/-- Reading every position of a list with `getD` reproduces the list. -/
theorem list_map_range_getD {β : Type} (l : List β) (d : β) :
    (List.range l.length).map (fun i => l.getD i d) = l := by
  apply List.ext_getElem
  · simp
  · intro i h1 h2
    simp only [List.getElem_map, List.getElem_range]
    rw [List.getD_eq_getElem l d h2]

/-- C1: the populated off-diagonal block positions of
`BandedBlockTriangularPreconditioner` are exactly those allowed by the
bandwidth/triangularity policy: with `Upper_triangular` only column > row
positions are candidates (otherwise column < row); with
`Block_bandwidth ≥ 0` exactly the candidates with `|col − row| ≤ bandwidth`
are populated and with bandwidth `-1` every candidate is; the constructor
defaults are upper-triangular with bandwidth `-1`. On a 4×4 upper-triangular
grid, bandwidth 1 populates exactly (0,1),(1,2),(2,3); bandwidth -1
populates all six strictly-upper positions; bandwidth 0 populates none. -/
theorem banded_block_triangular_populated_policy :
    (∀ (upper : Bool) (bw : Int) (row col : Nat),
        blockIsPopulated upper bw row col = true ↔
          (blockIsCandidate upper row col = true ∧
            (0 ≤ bw → |(col : Int) - (row : Int)| ≤ bw))) ∧
    (∀ (row col : Nat),
        (blockIsCandidate true row col = true ↔ row < col) ∧
        (blockIsCandidate false row col = true ↔ col < row)) ∧
    BandedBlockTriangularPreconditioner.init.Upper_triangular = true ∧
    BandedBlockTriangularPreconditioner.init.Block_bandwidth = -1 ∧
    populatedPositions 4 true 1 = {(0, 1), (1, 2), (2, 3)} ∧
    populatedPositions 4 true (-1) =
      {(0, 1), (0, 2), (0, 3), (1, 2), (1, 3), (2, 3)} ∧
    populatedPositions 4 true 0 = ∅ := by
  refine ⟨?_, ?_, rfl, rfl, by decide, by decide, by decide⟩
  · intro upper bw row col
    by_cases h : 0 ≤ bw <;>
      simp [blockIsPopulated, h]
  · intro row col
    constructor <;> simp [blockIsCandidate]

/-- C3 (code_bug evidence): in a RANGE_CHECKING build, element access on a
built `DoubleMultiVector` with two component vectors and three local rows at
the out-of-range vector index `v = 2 = Nvector` raises no range error: the
source compares `v > int(Nvector)` instead of `v >= int(Nvector)`, although
its own error message names `(0, Nvector - 1)` as the valid range, so the
access goes through to an unchecked out-of-bounds read. -/
theorem dmv_range_check_misses_v_eq_nvector :
    (DoubleMultiVector.build 2 ⟨6, 3, 0, false, 1, true⟩
        (0 : Rat)).rangeCheckFails 2 0 = false ∧
    (DoubleMultiVector.build 2 ⟨6, 3, 0, false, 1, true⟩ (0 : Rat)).entry 2 0 =
      Except.ok 0 ∧
    (DoubleMultiVector.build 2 ⟨6, 3, 0, false, 1, true⟩ (0 : Rat)).nvector = 2 ∧
    2 ∉ Finset.range
      (DoubleMultiVector.build 2 ⟨6, 3, 0, false, 1, true⟩ (0 : Rat)).nvector := by
  refine ⟨by decide, ?_, by decide, by decide⟩
  rfl

/-- C4: for both `ExactDGPBlockPreconditioner` and
`BandedBlockTriangularPreconditioner`, `get_memory_usage_in_bytes()` returns
exactly 0 together with a warning (never an error) when the preconditioner
has not been set up, and again when it has been set up but memory statistics
were never enabled; only when both hold is the recorded usage returned with
no warning. -/
theorem memory_usage_accessor_spec :
    ∀ (p : ExactDGPBlockPreconditioner)
      (q : BandedBlockTriangularPreconditioner),
      (p.Preconditioner_has_been_setup = false →
        p.get_memory_usage_in_bytes = (0, true)) ∧
      (p.Preconditioner_has_been_setup = true →
        p.Compute_memory_statistics = false →
          p.get_memory_usage_in_bytes = (0, true)) ∧
      (p.Preconditioner_has_been_setup = true →
        p.Compute_memory_statistics = true →
          p.get_memory_usage_in_bytes = (p.Memory_usage_in_bytes, false)) ∧
      (q.Preconditioner_has_been_setup = false →
        q.get_memory_usage_in_bytes = (0, true)) ∧
      (q.Preconditioner_has_been_setup = true →
        q.Compute_memory_statistics = false →
          q.get_memory_usage_in_bytes = (0, true)) ∧
      (q.Preconditioner_has_been_setup = true →
        q.Compute_memory_statistics = true →
          q.get_memory_usage_in_bytes = (q.Memory_usage_in_bytes, false)) := by
  intro p q
  refine ⟨?_, ?_, ?_, ?_, ?_, ?_⟩ <;> intro h1 <;>
    simp [ExactDGPBlockPreconditioner.get_memory_usage_in_bytes,
      BandedBlockTriangularPreconditioner.get_memory_usage_in_bytes, h1]

/-- C5: `BandedBlockTriangularPreconditioner::clean_up_memory()` frees
exactly the stored off-diagonal matrix-vector-product operators (plus what
the base-class cleanup frees), nulls every slot, delegates to the base-class
cleanup, is idempotent — a second call leaves the state unchanged and frees
nothing, so there is no double free — and is what the destructor invokes. -/
theorem banded_clean_up_memory_spec :
    ∀ p : BandedBlockTriangularPreconditioner,
      (∀ row ∈ p.clean_up_memory.1.Off_diagonal_matrix_vector_products,
        ∀ s ∈ row, s = none) ∧
      p.clean_up_memory.1.base = p.base.clean_up_memory.1 ∧
      (∀ op : Nat, op ∈ p.clean_up_memory.2 ↔
        ((∃ row ∈ p.Off_diagonal_matrix_vector_products, some op ∈ row) ∨
          op ∈ p.base.clean_up_memory.2)) ∧
      p.clean_up_memory.1.clean_up_memory = (p.clean_up_memory.1, []) ∧
      p.destructor = p.clean_up_memory := by
  intro p
  obtain ⟨⟨slots⟩, off, bw, ut, su, cs, mb⟩ := p
  refine ⟨?_, rfl, ?_, ?_, rfl⟩
  · intro row hrow s hs
    simp only [BandedBlockTriangularPreconditioner.clean_up_memory,
      List.mem_map] at hrow
    obtain ⟨r0, _, rfl⟩ := hrow
    simp only [List.mem_map] at hs
    obtain ⟨t, _, ht⟩ := hs
    exact ht.symm
  · intro op
    simp [BandedBlockTriangularPreconditioner.clean_up_memory,
      GeneralPurposeBlockPreconditionerBase.clean_up_memory,
      List.mem_flatten, List.mem_map, List.mem_filterMap]
  · simp [BandedBlockTriangularPreconditioner.clean_up_memory,
      GeneralPurposeBlockPreconditionerBase.clean_up_memory,
      List.map_map, Function.comp, List.filterMap_map]

/-- Reading every position of a list of known length with `getD` reproduces
the list. -/
theorem list_map_range_getD_of_length {β : Type} (l : List β) (d : β) (n : Nat)
    (h : l.length = n) :
    (List.range n).map (fun i => l.getD i d) = l := by
  subst h
  exact list_map_range_getD l d

/-- The local accumulation loop over `nrow_local` rows computes the inner
product of the two (local) value arrays. -/
theorem localSumLoop_eq_innerProduct {α : Type} [CommRing α] (n : Nat)
    (x y : List α) (hx : x.length = n) (hy : y.length = n) :
    DoubleMultiVector.localSumLoop n x y = DoubleMultiVector.innerProduct x y := by
  unfold DoubleMultiVector.localSumLoop DoubleMultiVector.innerProduct
  congr 1
  apply List.ext_getElem
  · simp [hx, hy]
  · intro i h1 h2
    have hxi : i < x.length := by simp [hx] at h1 ⊢; exact h1
    have hyi : i < y.length := by simp [hy] at h1 ⊢; exact h1
    simp only [List.getElem_map, List.getElem_range, List.getElem_zipWith]
    rw [List.getD_eq_getElem _ _ hxi, List.getD_eq_getElem _ _ hyi]

/-- The per-component partial-sum list computed by the loop of `dot` equals
the list of per-component inner products, for well-formed built storage. -/
theorem dot_partial_sums_eq {α : Type} [CommRing α]
    (a b : DoubleMultiVector α)
    (hwa : ∀ r ∈ a.Values, r.length = a.dist.nrowLocal)
    (hwb : ∀ r ∈ b.Values, r.length = a.dist.nrowLocal)
    (hlen : b.Values.length = a.Values.length) :
    ((List.range a.nvector).map fun v =>
        DoubleMultiVector.localSumLoop a.nrowLocal
          (a.Values.getD v []) (b.Values.getD v [])) =
      DoubleMultiVector.innerProducts a b := by
  apply List.ext_getElem
  · simp [DoubleMultiVector.nvector, DoubleMultiVector.innerProducts, hlen]
  · intro i h1 h2
    have hia : i < a.Values.length := by
      simpa [DoubleMultiVector.nvector] using h1
    have hib : i < b.Values.length := by
      rw [hlen]; exact hia
    simp only [List.getElem_map, List.getElem_range,
      DoubleMultiVector.innerProducts, List.getElem_zipWith]
    rw [List.getD_eq_getElem _ _ hia, List.getD_eq_getElem _ _ hib]
    exact localSumLoop_eq_innerProduct _ _ _
      (hwa _ (List.getElem_mem hia)) (hwb _ (List.getElem_mem hib))

/-- C2: for built `DoubleMultiVector`s with identical distributions, `dot`
computes, for each of the `k` component vectors, the inner product of the
local values against the corresponding vector of the other operand; exactly
one collective all-reduce (sum) combining all `k` partial sums in a single
communication is performed when the distribution spans more than one
process, and none otherwise; and a precondition error is thrown when either
operand is unbuilt or the distributions mismatch. -/
theorem dmv_dot_spec {α : Type} [CommRing α] (a b : DoubleMultiVector α)
    (allreduce : List α → List α)
    (hwa : ∀ r ∈ a.Values, r.length = a.dist.nrowLocal)
    (hwb : ∀ r ∈ b.Values, r.length = a.dist.nrowLocal)
    (hlen : b.Values.length = a.Values.length) :
    (a.Built = true → b.Built = true → a.dist = b.dist →
      a.dot b allreduce =
        if a.multiProc = true then
          Except.ok (allreduce (DoubleMultiVector.innerProducts a b),
            [CommEvent.allreduceSum a.nvector])
        else
          Except.ok (DoubleMultiVector.innerProducts a b, [])) ∧
    (a.Built = false → isError (a.dot b allreduce) = true) ∧
    (b.Built = false → isError (a.dot b allreduce) = true) ∧
    (a.dist ≠ b.dist → isError (a.dot b allreduce) = true) := by
  refine ⟨?_, ?_, ?_, ?_⟩
  · intro h1 h2 h3
    have hn := dot_partial_sums_eq a b hwa hwb hlen
    rw [DoubleMultiVector.dot]
    simp only [h1, h2, h3, hn]
    cases hm : a.multiProc <;>
      simp [hm, DoubleMultiVector.innerProducts,
        DoubleMultiVector.nvector, hlen]
  · intro h1
    simp [DoubleMultiVector.dot, h1, isError]
  · intro h1
    cases ha : a.Built <;> simp [DoubleMultiVector.dot, ha, h1, isError]
  · intro h1
    cases ha : a.Built <;> cases hb : b.Built <;>
      simp [DoubleMultiVector.dot, ha, hb, h1, isError]

/-- Witness for C2: two built two-component vectors on a distribution over
two processes with two local rows each, all values 1 and 3 respectively:
`dot` returns the all-reduced partial inner products `[6, 6]` and performs
exactly one collective combining both partial sums. -/
theorem dmv_dot_spec_witness :
    (DoubleMultiVector.build 2 ⟨4, 2, 0, true, 2, true⟩ (1 : Int)).dot
        (DoubleMultiVector.build 2 ⟨4, 2, 0, true, 2, true⟩ (3 : Int)) id =
      Except.ok ([6, 6], [CommEvent.allreduceSum 2]) := by
  have h := (dmv_dot_spec
      (DoubleMultiVector.build 2 ⟨4, 2, 0, true, 2, true⟩ (1 : Int))
      (DoubleMultiVector.build 2 ⟨4, 2, 0, true, 2, true⟩ (3 : Int)) id
      (by decide) (by decide) (by decide)).1 rfl rfl rfl
  rw [h]
  decide

/-- Adding a row elementwise and subtracting it again restores the row. -/
theorem map_range_sub_add {α : Type} [CommRing α] (nrl : Nat) (x y : List α)
    (hx : x.length = nrl) :
    (List.range nrl).map (fun i =>
        (((List.range nrl).map fun j => x.getD j 0 + y.getD j 0).getD i 0)
          - y.getD i 0) = x := by
  apply List.ext_getElem
  · simp [hx]
  · intro i h1 h2
    simp only [List.getElem_map, List.getElem_range]
    have hin : i < nrl := by simpa using h1
    have hi : i < ((List.range nrl).map fun j =>
        x.getD j 0 + y.getD j 0).length := by
      simpa using hin
    rw [List.getD_eq_getElem _ 0 hi]
    simp only [List.getElem_map, List.getElem_range]
    rw [List.getD_eq_getElem x 0 h2]
    exact add_sub_cancel_right _ _

/-- C6: for built `DoubleMultiVector`s `a` and `b` sharing a distribution,
`a += b` followed by `a -= b` succeeds, performs no communication (both
event lists are empty) and restores `a` exactly; `b` is only ever read. -/
theorem dmv_add_sub_round_trip {α : Type} [CommRing α]
    (a b : DoubleMultiVector α)
    (h1 : a.Built = true) (h2 : b.Built = true) (h3 : a.dist = b.dist)
    (h4 : a.dist.builtFlag = true)
    (hwa : ∀ r ∈ a.Values, r.length = a.dist.nrowLocal) :
    ∃ a1, a.plusEq b = Except.ok (a1, []) ∧
      a1.minusEq b = Except.ok (a, []) := by
  obtain ⟨av, ad, ab⟩ := a
  obtain ⟨bv, bd, bb⟩ := b
  dsimp only at h1 h2 h3 h4 hwa
  subst h1
  subst h2
  subst h3
  refine ⟨⟨(List.range av.length).map fun v =>
      (List.range ad.nrowLocal).map fun i =>
        (av.getD v []).getD i 0 + (bv.getD v []).getD i 0, ad, true⟩, ?_, ?_⟩
  · simp [DoubleMultiVector.plusEq, DoubleMultiVector.nvector,
      DoubleMultiVector.nrowLocal]
  · simp only [DoubleMultiVector.minusEq, DoubleMultiVector.nvector,
      DoubleMultiVector.nrowLocal, h4]
    simp only [Bool.true_eq_false, if_false, ne_eq, not_true_eq_false]
    set V := (List.range av.length).map fun v =>
        (List.range ad.nrowLocal).map fun i =>
          (av.getD v []).getD i 0 + (bv.getD v []).getD i 0 with hV
    have hW : (List.range V.length).map (fun v =>
        (List.range ad.nrowLocal).map fun i =>
          (V.getD v []).getD i 0 - (bv.getD v []).getD i 0) = av := by
      apply List.ext_getElem
      · simp [hV]
      · intro v h1 h2
        simp only [List.getElem_map, List.getElem_range]
        have hvV : v < V.length := by simpa [hV] using h2
        rw [List.getD_eq_getElem V [] hvV]
        simp only [hV, List.getElem_map, List.getElem_range]
        rw [List.getD_eq_getElem av [] h2]
        exact map_range_sub_add ad.nrowLocal _ _ (hwa _ (List.getElem_mem h2))
    rw [hW]

/-- Witness for C6: two built two-component vectors with two local rows,
values 5 and 7: adding then subtracting restores the first vector exactly,
with empty event lists. -/
theorem dmv_add_sub_round_trip_witness :
    ∃ a1, (DoubleMultiVector.build 2 ⟨4, 2, 0, false, 1, true⟩ (5 : Int)).plusEq
        (DoubleMultiVector.build 2 ⟨4, 2, 0, false, 1, true⟩ (7 : Int)) =
      Except.ok (a1, []) ∧
      a1.minusEq (DoubleMultiVector.build 2 ⟨4, 2, 0, false, 1, true⟩ (7 : Int)) =
        Except.ok
          (DoubleMultiVector.build 2 ⟨4, 2, 0, false, 1, true⟩ (5 : Int), []) :=
  dmv_add_sub_round_trip
    (DoubleMultiVector.build 2 ⟨4, 2, 0, false, 1, true⟩ (5 : Int))
    (DoubleMultiVector.build 2 ⟨4, 2, 0, false, 1, true⟩ (7 : Int))
    (by decide) (by decide) rfl (by decide) (by decide)

/-- C7: for a built `DoubleMultiVector` over ℝ, `norm` is the per-entry
square root of the self-`dot`: both perform the same local-sum and the same
single collective, and each entry of the self-dot result is the square of
the corresponding entry of the norm result (the reduction is assumed to
preserve nonnegativity, as the sum over processes of sums of squares does). -/
theorem dmv_norm_sq_eq_self_dot (a : DoubleMultiVector Real)
    (allreduce : List Real → List Real)
    (h1 : a.Built = true)
    (hred : ∀ l : List Real, (∀ x ∈ l, 0 ≤ x) → ∀ y ∈ allreduce l, 0 ≤ y) :
    ∃ d ev, a.dot a allreduce = Except.ok (d, ev) ∧
      a.norm Real.sqrt allreduce = Except.ok (d.map Real.sqrt, ev) ∧
      ∀ x ∈ d, Real.sqrt x ^ 2 = x := by
  have hnn : ∀ x ∈ (List.range a.nvector).map (fun v =>
      DoubleMultiVector.localSumLoop a.nrowLocal
        (a.Values.getD v []) (a.Values.getD v [])), 0 ≤ x := by
    intro x hx
    simp only [List.mem_map] at hx
    obtain ⟨v, _, rfl⟩ := hx
    unfold DoubleMultiVector.localSumLoop
    apply List.sum_nonneg
    intro t ht
    simp only [List.mem_map] at ht
    obtain ⟨i, _, rfl⟩ := ht
    exact mul_self_nonneg _
  cases hm : a.multiProc with
  | false =>
      refine ⟨(List.range a.nvector).map (fun v =>
          DoubleMultiVector.localSumLoop a.nrowLocal
            (a.Values.getD v []) (a.Values.getD v [])), [], ?_, ?_, ?_⟩
      · simp [DoubleMultiVector.dot, h1, hm]
      · simp [DoubleMultiVector.norm, h1, hm]
      · exact fun x hx => Real.sq_sqrt (hnn x hx)
  | true =>
      refine ⟨allreduce ((List.range a.nvector).map (fun v =>
          DoubleMultiVector.localSumLoop a.nrowLocal
            (a.Values.getD v []) (a.Values.getD v []))),
          [CommEvent.allreduceSum a.nvector], ?_, ?_, ?_⟩
      · simp [DoubleMultiVector.dot, h1, hm]
      · simp [DoubleMultiVector.norm, h1, hm]
      · exact fun x hx => Real.sq_sqrt (hred _ hnn x hx)

/-- Witness for C7: a built one-component vector over ℝ with two local rows
of value 2; the self-dot is `[8]` and the norm is `[sqrt 8]`, whose square
is 8 again. -/
theorem dmv_norm_sq_eq_self_dot_witness :
    ∃ d ev, (DoubleMultiVector.build 1 ⟨2, 2, 0, false, 1, true⟩ (2 : Real)).dot
        (DoubleMultiVector.build 1 ⟨2, 2, 0, false, 1, true⟩ (2 : Real)) id =
      Except.ok (d, ev) ∧
      (DoubleMultiVector.build 1 ⟨2, 2, 0, false, 1, true⟩ (2 : Real)).norm
        Real.sqrt id = Except.ok (d.map Real.sqrt, ev) ∧
      ∀ x ∈ d, Real.sqrt x ^ 2 = x :=
  dmv_norm_sq_eq_self_dot
    (DoubleMultiVector.build 1 ⟨2, 2, 0, false, 1, true⟩ (2 : Real)) id
    rfl (fun _ h y hy => h y hy)

/-- C8: `MumpsSolver::disable_resolve()` disables the base-class resolve
flag and additionally releases the factorisation state and the triplet
arrays (it invokes `clean_up_memory` on top of the base-class disable); the
destructor likewise invokes `clean_up_memory`; and after `disable_resolve` a
`resolve` fails because no warm factorisation remains. -/
theorem mumps_disable_resolve_spec :
    ∀ (s : MumpsSolverState) (rhs : Nat),
      s.disable_resolve.Enable_resolve = false ∧
      s.disable_resolve.Mumps_is_initialised = false ∧
      s.disable_resolve.Irn_loc = [] ∧
      s.disable_resolve.Jcn_loc = [] ∧
      s.disable_resolve.A_loc = [] ∧
      s.disable_resolve.warmFactorisation = none ∧
      s.disable_resolve = s.linearSolverDisableResolve.clean_up_memory ∧
      s.destructor = s.clean_up_memory ∧
      (∃ e, s.disable_resolve.resolve rhs = Except.error e) := by
  intro s rhs
  exact ⟨rfl, rfl, rfl, rfl, rfl, rfl, rfl, rfl, ⟨_, rfl⟩⟩

/-- C9: the `nz()` accessor of a `SimpleCubicMesh` constructed with element
counts `(nx, ny, nz)` returns the stored `Nx` field instead of `Nz`, so
whenever the x and z element counts differ, `nz()` does not return the
mesh's z-direction element count. -/
theorem simple_cubic_mesh_nz_returns_Nx :
    ∀ (nxc nyc nzc : Nat) (lx ly lz : Rat),
      (SimpleCubicMesh.construct nxc nyc nzc lx ly lz).nz = nxc ∧
      (SimpleCubicMesh.construct nxc nyc nzc lx ly lz).Nz = nzc ∧
      (nxc ≠ nzc →
        (SimpleCubicMesh.construct nxc nyc nzc lx ly lz).nz ≠
          (SimpleCubicMesh.construct nxc nyc nzc lx ly lz).Nz) := by
  intro nxc nyc nzc lx ly lz
  exact ⟨rfl, rfl, fun h => h⟩

/-- C10: `NewMumpsPreconditioner::setup()` throws an `OomphLibError` exactly
when the configured matrix is not a `DistributableLinearAlgebraObject`; when
it is, setup adopts the matrix's distribution as the preconditioner's own
and factorises the matrix, and a subsequent `preconditioner_solve(r, z)` is
exactly a resolve of the factorised system against `r`. -/
theorem new_mumps_preconditioner_setup_spec :
    ∀ (p : NewMumpsPreconditioner) (m : MatrixObject) (r : Nat),
      ((∃ e, p.setup m = Except.error e) ↔ m.distributable = none) ∧
      (∀ d, m.distributable = some d →
        ∃ p2, p.setup m = Except.ok p2 ∧
          p2.Distribution = some d ∧
          p2.Solver.warmFactorisation = some m.id ∧
          p2.preconditioner_solve r = p2.Solver.resolve r ∧
          p2.preconditioner_solve r = Except.ok (m.id, r)) := by
  intro p m r
  obtain ⟨mid, mdist⟩ := m
  cases mdist with
  | none =>
      exact ⟨⟨fun _ => rfl, fun _ => ⟨_, rfl⟩⟩,
        fun d hd => Option.noConfusion hd⟩
  | some d0 =>
      refine ⟨⟨fun he => Except.noConfusion he.choose_spec,
        fun he => Option.noConfusion he⟩, ?_⟩
      intro d hd
      injection hd with h2
      subst h2
      exact ⟨_, rfl, rfl, rfl, rfl, rfl⟩

end Oomph
